import Mathlib

/-!
Shallow embedding of `machina/loss_functional.py`, the loss-function layer of
the machina reinforcement-learning library.

Tensors of batch length `n` are embedded as `Fin n → ℚ`; tensors with an extra
leading sampling dimension `s` as `Fin s → Fin n → ℚ`; tensors with a trailing
feature dimension `d` as `Fin n → Fin d → ℚ`.  The opaque collaborators
(policies, Q-functions, distributions) are passed in as the tensors or
pointwise functions the source obtains from them: a Q-function applied to a
batch is a pointwise function `ℚ → ℚ → ℚ` mapped over the batch, a
log-likelihood produced by the distribution capability is an input tensor.
Backend transcendental primitives (`torch.exp`, `torch.log`, `torch.sqrt`) are
abstract function parameters.  `detach` is a value-level no-op; the
gradient-flow semantics of `detach` is modelled separately with forward-mode
dual numbers further below.
-/

namespace Machina

/-- `torch.sum` of a 1-D tensor of length `n`. -/
def vsum {n : ℕ} (v : Fin n → ℚ) : ℚ := ∑ i, v i

/-- `torch.mean` of a 1-D tensor of length `n` (sum divided by element count). -/
def vmean {n : ℕ} (v : Fin n → ℚ) : ℚ := vsum v / n

/-- `torch.mean` of a 2-D tensor of shape `[s, n]` (mean over all elements). -/
def vmean2 {s n : ℕ} (t : Fin s → Fin n → ℚ) : ℚ := (∑ k, ∑ i, t k i) / (s * n)

/-- `torch.clamp(x, lo, hi)`. -/
def clamp (x lo hi : ℚ) : ℚ := min (max x lo) hi

/-- `torch.min(t)` on a single tensor argument: the global minimum over all
elements (a 0-dim tensor).  Empty tensors do not occur in the source's uses. -/
def gmin {n : ℕ} (t : Fin n → ℚ) : ℚ := ((List.ofFn t).min?).getD 0

/-- `torch.max(t)` on a single tensor argument: the global maximum over all
elements (a 0-dim tensor). -/
def gmax {n : ℕ} (t : Fin n → ℚ) : ℚ := ((List.ofFn t).max?).getD 0

/-- The importance ratio tensor `torch.exp(new_llh - old_llh)` of `pg_clip`
(line 52 of the source); `qexp` is the backend exponential. -/
def pg_clip_r {n : ℕ} (qexp : ℚ → ℚ) (old_llh new_llh : Fin n → ℚ) :
    Fin n → ℚ :=
  fun i => qexp (new_llh i - old_llh i)

/-- `pol_loss1 = - ratio * advs` of `pg_clip` (line 53). -/
def pg_clip_loss1 {n : ℕ} (qexp : ℚ → ℚ) (old_llh new_llh advs : Fin n → ℚ) :
    Fin n → ℚ :=
  fun i => - pg_clip_r qexp old_llh new_llh i * advs i

/-- `pol_loss2 = - clamp(ratio, 1-clip_param, 1+clip_param) * advs` of
`pg_clip` (line 54). -/
def pg_clip_loss2 {n : ℕ} (qexp : ℚ → ℚ) (old_llh new_llh advs : Fin n → ℚ)
    (clip_param : ℚ) : Fin n → ℚ :=
  fun i =>
    - clamp (pg_clip_r qexp old_llh new_llh i) (1 - clip_param)
        (1 + clip_param) * advs i

/-- Embedding of `pg_clip`.  `out_masks_b` is `batch['out_masks']`; when the
policy is not recurrent the source replaces it by `torch.ones_like(advs)`.
`old_llh`, `new_llh` and `ent` are the outputs of the opaque distribution
capability (`pd.llh(batch['acs'], batch)`, `pd.llh(acs, pd_params)`,
`pd.ent(pd_params)`). -/
def pg_clip {n : ℕ} (qexp : ℚ → ℚ) (rnn : Bool) (out_masks_b : Fin n → ℚ)
    (advs old_llh new_llh ent : Fin n → ℚ) (clip_param ent_beta : ℚ) : ℚ :=
  let out_masks := if rnn then out_masks_b else fun _ => (1 : ℚ)
  let pol_loss := vmean (fun i =>
    max (pg_clip_loss1 qexp old_llh new_llh advs i)
      (pg_clip_loss2 qexp old_llh new_llh advs clip_param i) * out_masks i)
  pol_loss - ent_beta * vmean ent

/-- Embedding of `pg_kl`.  `kl` is the output of `pol.pd.kl_pq(batch,
pd_params)`. -/
def pg_kl {n : ℕ} (qexp : ℚ → ℚ) (rnn : Bool) (out_masks_b : Fin n → ℚ)
    (advs old_llh new_llh kl ent : Fin n → ℚ) (kl_beta ent_beta : ℚ) : ℚ :=
  let out_masks := if rnn then out_masks_b else fun _ => (1 : ℚ)
  let pol_loss := fun i =>
    qexp (new_llh i - old_llh i) * advs i * out_masks i
      - kl_beta * kl i * out_masks i
  let pol_loss := - vmean pol_loss
  pol_loss - ent_beta * vmean ent

/-- Embedding of `pg` (vanilla policy gradient).  `llh` is the output of
`pol.pd.llh(acs, pd_params)`. -/
def pg {n : ℕ} (rnn : Bool) (out_masks_b : Fin n → ℚ)
    (advs llh ent : Fin n → ℚ) (ent_beta : ℚ) : ℚ :=
  let out_masks := if rnn then out_masks_b else fun _ => (1 : ℚ)
  let pol_loss := - vmean (fun i => llh i * advs i * out_masks i)
  pol_loss - ent_beta * vmean ent

/-- Embedding of `monte_carlo`.  `vs` is the output of the value function on
the observations, `old_vs` is `batch['vs']` (only read in the clipped
branch). -/
def monte_carlo {n : ℕ} (rnn : Bool) (out_masks_b : Fin n → ℚ)
    (vs rets old_vs : Fin n → ℚ) (clip_param : ℚ) (clip : Bool) : ℚ :=
  let out_masks := if rnn then out_masks_b else fun _ => (1 : ℚ)
  let vfloss1 := fun i => (vs i - rets i) ^ 2
  if clip then
    let vpredclipped := fun i =>
      old_vs i + clamp (vs i - old_vs i) (-clip_param) clip_param
    let vfloss2 := fun i => (vpredclipped i - rets i) ^ 2
    (1 / 2) * vmean (fun i => max (vfloss1 i) (vfloss2 i) * out_masks i)
  else
    (1 / 2) * vmean (fun i => vfloss1 i * out_masks i)

/-- Embedding of `dynamics`.  `pred` is the output of the dynamics model on
`(obs, acs)`; observation-shaped tensors carry a trailing feature dimension
`d` over which the source takes `torch.mean(:, dim=-1)`. -/
def dynamics {n d : ℕ} (rnn : Bool) (out_masks_b : Fin n → ℚ)
    (pred obs next_obs rews : Fin n → Fin d → ℚ)
    (target : String) (td : Bool) : ℚ :=
  let out_masks := if rnn then out_masks_b else fun _ => (1 : ℚ)
  let dm_loss := fun (i : Fin n) (j : Fin d) =>
    if target = "rews" ∨ ¬ td then
      (pred i j - (if target = "rews" then rews i j else next_obs i j)) ^ 2
    else
      (pred i j - (next_obs i j - obs i j)) ^ 2
  (1 / 2) * vmean (fun i => vmean (fun j => dm_loss i j) * out_masks i)

/-- Result of `bellman`: a scalar for the reduced forms, the unreduced
per-sample tensor for `reduction='none'`. -/
inductive TOut (n : ℕ) where
  | scalar (x : ℚ)
  | tensor (v : Fin n → ℚ)
deriving DecidableEq

/-- Error message of the `continuous=False` branch of `bellman`. -/
def bellmanNotImplErr : String :=
  "Only Q function with continuous action space is supported now."

/-- Embedding of `bellman`.  `q` is `qf(obs, acs)`; `targ_q` is the output of
the target critic on the `sampling`-expanded next observations and the
`sampling` next actions drawn from the target policy (all opaque collaborator
outputs, passed as tensors; `s` is the `sampling` count).  `deterministic` is
accepted and unused, as in the source.  `targ.detach()` is a value-level
no-op. -/
def bellman {n s : ℕ} (q : Fin n → ℚ) (targ_q : Fin s → Fin n → ℚ)
    (rews dones : Fin n → ℚ) (gamma : ℚ)
    (continuous deterministic : Bool) (reduction : String) :
    Except String (TOut n) :=
  if continuous then
    let next_q := fun i => vmean (fun k => targ_q k i)
    let targ := fun i => rews i + gamma * next_q i * (1 - dones i)
    let ret := fun i => (1 / 2) * (q i - targ i) ^ 2
    if reduction ≠ "none" then
      Except.ok (TOut.scalar
        (if reduction = "elementwise_mean" then vmean ret else vsum ret))
    else
      Except.ok (TOut.tensor ret)
  else
    Except.error bellmanNotImplErr

/-- Error message of the unknown-`loss_type` branch of
`clipped_double_bellman`. -/
def cdbLossTypeErr : String := "Only bce and mse are supported"

/-- Embedding of `clipped_double_bellman`.  `q` is `qf(obs, acs)`;
`targ_qf1_max` is the greedy-max capability `targ_qf1.max`, returning per
observation the pair `(max Q-value, argmax action)`; `targ_qf2` is the second
target critic applied pointwise.  `qlog` is the backend logarithm used by
`nn.BCELoss` (binary cross-entropy `-mean(targ*log q + (1-targ)*log(1-q))`). -/
def clipped_double_bellman {n : ℕ} (qlog : ℚ → ℚ) (q : Fin n → ℚ)
    (targ_qf1_max : ℚ → ℚ × ℚ) (targ_qf2 : ℚ → ℚ → ℚ)
    (next_obs rews dones : Fin n → ℚ) (gamma : ℚ) (loss_type : String) :
    Except String ℚ :=
  let targ_q1 := fun i => (targ_qf1_max (next_obs i)).1
  let next_acs := fun i => (targ_qf1_max (next_obs i)).2
  let targ_q2 := fun i => targ_qf2 (next_obs i) (next_acs i)
  let targ_q := fun i => min (targ_q1 i) (targ_q2 i)
  let targ := fun i => rews i + gamma * targ_q i * (1 - dones i)
  if loss_type = "bce" then
    Except.ok (vmean (fun i =>
      -(targ i * qlog (q i) + (1 - targ i) * qlog (1 - q i))))
  else if loss_type = "mse" then
    Except.ok (vmean (fun i => (1 / 2) * (q i - targ i) ^ 2))
  else
    Except.error cdbLossTypeErr

/-- `torch.min(*ts)` as the source's `sac` applies it to the list of
per-target-critic next-state values: with one tensor it is the global minimum
over all elements (a 0-dim tensor, modelled as the broadcast constant
tensor); with two tensors it is the elementwise minimum; with zero or three or
more arguments the call raises. -/
def torchMinList {n : ℕ} (ts : List (Fin n → ℚ)) : Option (Fin n → ℚ) :=
  match ts with
  | [t] => some (fun _ => gmin t)
  | [a, b] => some (fun i => min (a i) (b i))
  | _ => none

/-- `torch.max(*ts)`, variadic as in `torchMinList`. -/
def torchMaxList {n : ℕ} (ts : List (Fin n → ℚ)) : Option (Fin n → ℚ) :=
  match ts with
  | [t] => some (fun _ => gmax t)
  | [a, b] => some (fun i => max (a i) (b i))
  | _ => none

/-- `torch.std` (unbiased, as is the torch default): square root of the sum of
squared deviations divided by `n - 1`; `qsqrt` is the backend square root. -/
def vstd {n : ℕ} (qsqrt : ℚ → ℚ) (v : Fin n → ℚ) : ℚ :=
  qsqrt ((∑ i, (v i - vmean v) ^ 2) / ((n : ℚ) - 1))

/-- Embedding of `sac`.  The critics `qfs` and target critics `targ_qfs` are
pointwise functions mapped over the batch; `sampled_acs`/`sampled_next_acs`
are the `pd.sample` outputs, `sampled_llh`/`sampled_next_llh` the
corresponding `pd.llh` outputs (the source detaches `sampled_acs` before the
`llh` call, inside the opaque capability).  `ac_dim` is
`np.prod(pol.ac_space.shape).item()`.  Returns `none` where the source would
raise from the variadic `torch.min`/`torch.max` calls, and otherwise the
triple `(pol_loss, qf_losses, alpha_loss)`. -/
def sac {n s : ℕ} (qexp qsqrt : ℚ → ℚ) (qfs targ_qfs : List (ℚ → ℚ → ℚ))
    (log_alpha : ℚ) (obs acs rews next_obs dones : Fin n → ℚ)
    (sampled_acs sampled_next_acs sampled_llh sampled_next_llh :
      Fin s → Fin n → ℚ)
    (gamma : ℚ) (reparam normalize : Bool) (eps ac_dim : ℚ) :
    Option (ℚ × List ℚ × ℚ) :=
  let alpha := qexp log_alpha
  let sampled_qs := qfs.map (fun qf =>
    fun (k : Fin s) (i : Fin n) => qf (obs i) (sampled_acs k i))
  let sampled_next_targ_qs := targ_qfs.map (fun targ_qf =>
    fun (k : Fin s) (i : Fin n) => targ_qf (next_obs i) (sampled_next_acs k i))
  let next_vs := sampled_next_targ_qs.map (fun sampled_next_targ_q =>
    fun i => vmean (fun k =>
      sampled_next_targ_q k i - alpha * sampled_next_llh k i))
  match torchMinList next_vs with
  | none => none
  | some next_v =>
    let q_targ := fun i => rews i + gamma * next_v i * (1 - dones i)
    let qs := qfs.map (fun qf => fun i => qf (obs i) (acs i))
    let qf_losses := qs.map (fun q =>
      (1 / 2) * vmean (fun i => (q i - q_targ i) ^ 2))
    let pol_losses := sampled_qs.map (fun sampled_q =>
      fun i => vmean (fun k => alpha * sampled_llh k i - sampled_q k i))
    let pol_step : Option ℚ :=
      if reparam then
        (torchMaxList pol_losses).map vmean
      else
        (torchMaxList pol_losses).map (fun pg_weight0 =>
          let pg_weight := if normalize then
              fun i => (pg_weight0 i - vmean pg_weight0) /
                (vstd qsqrt pg_weight0 + eps)
            else pg_weight0
          vmean (fun i => vmean (fun k => sampled_llh k i) * pg_weight i))
    match pol_step with
    | none => none
    | some pol_loss =>
      let alpha_loss :=
        - vmean2 (fun k i => log_alpha * (sampled_llh k i - ac_dim))
      some (pol_loss, qf_losses, alpha_loss)

/-- Spec-side definition, for comparison with `sac`: the single-critic SAC
computation "with that one critic and no ensemble reduction at all"
(reparameterized mode), following the spec's words: per-critic soft next-state
value used elementwise as the pessimistic value (identity min for a
one-member ensemble), TD target, critic loss `0.5·mean((Q − target)²)`,
policy loss `mean` over the batch of the per-sample mean of
`α·llh − Q`, and the temperature loss. -/
def sacSingleCriticSpec {n s : ℕ} (qexp : ℚ → ℚ) (qf targ_qf : ℚ → ℚ → ℚ)
    (log_alpha : ℚ) (obs acs rews next_obs dones : Fin n → ℚ)
    (sampled_acs sampled_next_acs sampled_llh sampled_next_llh :
      Fin s → Fin n → ℚ)
    (gamma : ℚ) (ac_dim : ℚ) : ℚ × List ℚ × ℚ :=
  let alpha := qexp log_alpha
  let next_v := fun i => vmean (fun k =>
    targ_qf (next_obs i) (sampled_next_acs k i) - alpha * sampled_next_llh k i)
  let q_targ := fun i => rews i + gamma * next_v i * (1 - dones i)
  let qf_loss := (1 / 2) * vmean (fun i => (qf (obs i) (acs i) - q_targ i) ^ 2)
  let pol_loss := vmean (fun i =>
    vmean (fun k => alpha * sampled_llh k i - qf (obs i) (sampled_acs k i)))
  let alpha_loss := - vmean2 (fun k i => log_alpha * (sampled_llh k i - ac_dim))
  (pol_loss, [qf_loss], alpha_loss)

/-- Embedding of `shannon_cross_entropy`.  `kl` and `ent` are the outputs of
`s_pd.kl_pq(t_params, s_params)` and `s_pd.ent(t_params)`; `rews` is
`batch['rews']` (only its shape is read, for `torch.ones_like`).  The source
binds `out_masks` (from the batch for a recurrent teacher, else all ones) but
never uses it. -/
def shannon_cross_entropy {n : ℕ} (rnn : Bool)
    (out_masks_b rews : Fin n → ℚ) (kl ent : Fin n → ℚ) : ℚ :=
  let out_masks := if rnn then out_masks_b else fun _ => (1 : ℚ)
  vmean (fun i => kl i - ent i)

/-!
### Forward-mode dual-number semantics (gradient detachment)

To state the gradient-flow property of `detach`, each scalar of the torch
graph is modelled as a dual number carrying its value together with its
derivative with respect to one chosen target-network parameter (forward-mode
AD).  `detach` zeroes the derivative; every arithmetic primitive propagates
derivatives by the chain rule; `torch.min`/`torch.max` route the derivative
to the selected branch, as torch's subgradients do.  The loss functions
`bellman`, `clipped_double_bellman` and `sac` are re-traversed below on dual
numbers, with the same structure as their value-level embeddings.
-/

/-- A scalar with its derivative with respect to a fixed parameter. -/
structure Dual where
  val : ℚ
  grad : ℚ
deriving DecidableEq

namespace Dual

/-- A constant (data) scalar: derivative zero. -/
def ofRat (q : ℚ) : Dual := ⟨q, 0⟩

def add (a b : Dual) : Dual := ⟨a.val + b.val, a.grad + b.grad⟩

def sub (a b : Dual) : Dual := ⟨a.val - b.val, a.grad - b.grad⟩

def neg (a : Dual) : Dual := ⟨-a.val, -a.grad⟩

def mul (a b : Dual) : Dual :=
  ⟨a.val * b.val, a.grad * b.val + a.val * b.grad⟩

def div (a b : Dual) : Dual :=
  ⟨a.val / b.val, (a.grad * b.val - a.val * b.grad) / b.val ^ 2⟩

/-- Multiplication by a Python float constant. -/
def smul (c : ℚ) (a : Dual) : Dual := ⟨c * a.val, c * a.grad⟩

/-- `tensor.detach()`: keep the value, cut the derivative. -/
def detach (a : Dual) : Dual := ⟨a.val, 0⟩

/-- A differentiable unary backend primitive with pointwise derivative `f'`
(chain rule), used for `torch.exp`, `torch.log`, `torch.sqrt`. -/
def lift (f fd : ℚ → ℚ) (a : Dual) : Dual := ⟨f a.val, a.grad * fd a.val⟩

/-- Elementwise `torch.max` on two tensors: the derivative follows the
selected element. -/
def dmax (a b : Dual) : Dual := if a.val < b.val then b else a

/-- Elementwise `torch.min` on two tensors. -/
def dmin (a b : Dual) : Dual := if b.val < a.val then b else a

end Dual

/-- `torch.sum` on duals: derivative of a sum is the sum of derivatives. -/
def dvsum {n : ℕ} (v : Fin n → Dual) : Dual :=
  ⟨vsum (fun i => (v i).val), vsum (fun i => (v i).grad)⟩

/-- `torch.mean` on duals. -/
def dvmean {n : ℕ} (v : Fin n → Dual) : Dual :=
  ⟨vmean (fun i => (v i).val), vmean (fun i => (v i).grad)⟩

/-- `torch.mean` over both dimensions of an `[s, n]` tensor, on duals. -/
def dvmean2 {s n : ℕ} (t : Fin s → Fin n → Dual) : Dual :=
  ⟨vmean2 (fun k i => (t k i).val), vmean2 (fun k i => (t k i).grad)⟩

/-- Selection step of a global minimum: keep the smaller value (and its
derivative). -/
def dselMin (a b : Dual) : Dual := if b.val < a.val then b else a

/-- Selection step of a global maximum. -/
def dselMax (a b : Dual) : Dual := if a.val < b.val then b else a

/-- `torch.min(t)` on a single dual tensor: global minimum, derivative of the
selected element. -/
def gminD {n : ℕ} (t : Fin n → Dual) : Dual :=
  match List.ofFn t with
  | [] => ⟨0, 0⟩
  | x :: xs => xs.foldl dselMin x

/-- `torch.max(t)` on a single dual tensor: global maximum. -/
def gmaxD {n : ℕ} (t : Fin n → Dual) : Dual :=
  match List.ofFn t with
  | [] => ⟨0, 0⟩
  | x :: xs => xs.foldl dselMax x

/-- Variadic `torch.min(*ts)` on duals, as in `torchMinList`. -/
def torchMinListD {n : ℕ} (ts : List (Fin n → Dual)) :
    Option (Fin n → Dual) :=
  match ts with
  | [t] => some (fun _ => gminD t)
  | [a, b] => some (fun i => Dual.dmin (a i) (b i))
  | _ => none

/-- Variadic `torch.max(*ts)` on duals. -/
def torchMaxListD {n : ℕ} (ts : List (Fin n → Dual)) :
    Option (Fin n → Dual) :=
  match ts with
  | [t] => some (fun _ => gmaxD t)
  | [a, b] => some (fun i => Dual.dmax (a i) (b i))
  | _ => none

/-- `torch.std` (unbiased) on duals, composed from dual primitives with the
backend square root `qsqrt` and its derivative. -/
def dvstd {n : ℕ} (qsqrt qsqrtd : ℚ → ℚ) (v : Fin n → Dual) : Dual :=
  Dual.lift qsqrt qsqrtd
    (Dual.smul (1 / ((n : ℚ) - 1))
      (dvsum (fun i => Dual.mul (Dual.sub (v i) (dvmean v))
        (Dual.sub (v i) (dvmean v)))))

/-- Result of `bellmanD` (dual-number counterpart of `TOut`). -/
inductive DTOut (n : ℕ) where
  | scalar (x : Dual)
  | tensor (v : Fin n → Dual)
deriving DecidableEq

/-- Every derivative in a `bellmanD` result is zero. -/
def DTOutGradZero {n : ℕ} : DTOut n → Prop
  | DTOut.scalar x => x.grad = 0
  | DTOut.tensor v => ∀ i, (v i).grad = 0

/-- `bellman` re-traversed on dual numbers (same structure as `bellman`):
the TD target is built from the target-critic outputs and then detached. -/
def bellmanD {n s : ℕ} (q : Fin n → Dual) (targ_q : Fin s → Fin n → Dual)
    (rews dones : Fin n → Dual) (gamma : ℚ)
    (continuous deterministic : Bool) (reduction : String) :
    Except String (DTOut n) :=
  if continuous then
    let next_q := fun i => dvmean (fun k => targ_q k i)
    let targ := fun i => Dual.add (rews i)
      (Dual.mul (Dual.smul gamma (next_q i))
        (Dual.sub (Dual.ofRat 1) (dones i)))
    let targ := fun i => Dual.detach (targ i)
    let ret := fun i => Dual.smul (1 / 2)
      (Dual.mul (Dual.sub (q i) (targ i)) (Dual.sub (q i) (targ i)))
    if reduction ≠ "none" then
      Except.ok (DTOut.scalar
        (if reduction = "elementwise_mean" then dvmean ret else dvsum ret))
    else
      Except.ok (DTOut.tensor ret)
  else
    Except.error bellmanNotImplErr

/-- `clipped_double_bellman` re-traversed on dual numbers; `qlog`/`qlogd` are
the backend logarithm of `nn.BCELoss` and its derivative. -/
def clipped_double_bellmanD {n : ℕ} (qlog qlogd : ℚ → ℚ) (q : Fin n → Dual)
    (targ_qf1_max : Dual → Dual × Dual) (targ_qf2 : Dual → Dual → Dual)
    (next_obs rews dones : Fin n → Dual) (gamma : ℚ) (loss_type : String) :
    Except String Dual :=
  let targ_q1 := fun i => (targ_qf1_max (next_obs i)).1
  let next_acs := fun i => (targ_qf1_max (next_obs i)).2
  let targ_q2 := fun i => targ_qf2 (next_obs i) (next_acs i)
  let targ_q := fun i => Dual.dmin (targ_q1 i) (targ_q2 i)
  let targ := fun i => Dual.detach (Dual.add (rews i)
    (Dual.mul (Dual.smul gamma (targ_q i))
      (Dual.sub (Dual.ofRat 1) (dones i))))
  if loss_type = "bce" then
    Except.ok (dvmean (fun i => Dual.neg (Dual.add
      (Dual.mul (targ i) (Dual.lift qlog qlogd (q i)))
      (Dual.mul (Dual.sub (Dual.ofRat 1) (targ i))
        (Dual.lift qlog qlogd (Dual.sub (Dual.ofRat 1) (q i)))))))
  else if loss_type = "mse" then
    Except.ok (dvmean (fun i => Dual.smul (1 / 2)
      (Dual.mul (Dual.sub (q i) (targ i)) (Dual.sub (q i) (targ i)))))
  else
    Except.error cdbLossTypeErr

/-- `sac` re-traversed on dual numbers (same structure as `sac`; in the
likelihood-ratio branch the per-critic policy-gradient weights are detached
before the variadic max, as in the source). -/
def sacD {n s : ℕ} (qexp qexpd qsqrt qsqrtd : ℚ → ℚ)
    (qfs targ_qfs : List (Dual → Dual → Dual)) (log_alpha : Dual)
    (obs acs rews next_obs dones : Fin n → Dual)
    (sampled_acs sampled_next_acs sampled_llh sampled_next_llh :
      Fin s → Fin n → Dual)
    (gamma : ℚ) (reparam normalize : Bool) (eps ac_dim : ℚ) :
    Option (Dual × List Dual × Dual) :=
  let alpha := Dual.lift qexp qexpd log_alpha
  let sampled_qs : List (Fin s → Fin n → Dual) := qfs.map (fun qf =>
    fun (k : Fin s) (i : Fin n) => qf (obs i) (sampled_acs k i))
  let sampled_next_targ_qs : List (Fin s → Fin n → Dual) :=
    targ_qfs.map (fun targ_qf =>
      fun (k : Fin s) (i : Fin n) => targ_qf (next_obs i) (sampled_next_acs k i))
  let next_vs : List (Fin n → Dual) :=
    sampled_next_targ_qs.map (fun sampled_next_targ_q =>
      fun i => dvmean (fun k => Dual.sub (sampled_next_targ_q k i)
        (Dual.mul alpha (sampled_next_llh k i))))
  match torchMinListD next_vs with
  | none => none
  | some next_v =>
    let q_targ := fun i => Dual.detach (Dual.add (rews i)
      (Dual.mul (Dual.smul gamma (next_v i))
        (Dual.sub (Dual.ofRat 1) (dones i))))
    let qs := qfs.map (fun qf => fun i => qf (obs i) (acs i))
    let qf_losses := qs.map (fun q => Dual.smul (1 / 2)
      (dvmean (fun i => Dual.mul (Dual.sub (q i) (q_targ i))
        (Dual.sub (q i) (q_targ i)))))
    let pol_step : Option Dual :=
      if reparam then
        (torchMaxListD (sampled_qs.map (fun sampled_q =>
          fun i => dvmean (fun k => Dual.sub
            (Dual.mul alpha (sampled_llh k i)) (sampled_q k i))))).map dvmean
      else
        (torchMaxListD (sampled_qs.map (fun sampled_q =>
          fun i => Dual.detach (dvmean (fun k => Dual.sub
            (Dual.mul alpha (sampled_llh k i)) (sampled_q k i)))))).map
          (fun pg_weight0 =>
            let pg_weight := if normalize then
                fun i => Dual.div (Dual.sub (pg_weight0 i) (dvmean pg_weight0))
                  (Dual.add (dvstd qsqrt qsqrtd pg_weight0) (Dual.ofRat eps))
              else pg_weight0
            dvmean (fun i => Dual.mul (dvmean (fun k => sampled_llh k i))
              (pg_weight i)))
    match pol_step with
    | none => none
    | some pol_loss =>
      let alpha_loss := Dual.neg (dvmean2 (fun k i =>
        Dual.mul log_alpha
          (Dual.detach (Dual.sub (sampled_llh k i) (Dual.ofRat ac_dim)))))
      some (pol_loss, qf_losses, alpha_loss)

/-! ### Helper lemmas -/

/-- The mean of a constant tensor of length one is that constant. -/
theorem vmean_one {c : ℚ} : vmean (fun _ : Fin 1 => c) = c := by
  simp [vmean, vsum]

/-- The mean of the zero tensor is zero. -/
theorem vmean_zero {n : ℕ} : vmean (fun _ : Fin n => (0 : ℚ)) = 0 := by
  simp [vmean, vsum]

/-- `detach` always yields derivative zero. -/
theorem g0_detach (a : Dual) : (Dual.detach a).grad = 0 := rfl

/-- Constants carry derivative zero. -/
theorem g0_ofRat (q : ℚ) : (Dual.ofRat q).grad = 0 := rfl

theorem g0_add {a b : Dual} (ha : a.grad = 0) (hb : b.grad = 0) :
    (Dual.add a b).grad = 0 := by
  simp [Dual.add, ha, hb]

theorem g0_sub {a b : Dual} (ha : a.grad = 0) (hb : b.grad = 0) :
    (Dual.sub a b).grad = 0 := by
  simp [Dual.sub, ha, hb]

theorem g0_neg {a : Dual} (ha : a.grad = 0) : (Dual.neg a).grad = 0 := by
  simp [Dual.neg, ha]

theorem g0_mul {a b : Dual} (ha : a.grad = 0) (hb : b.grad = 0) :
    (Dual.mul a b).grad = 0 := by
  simp [Dual.mul, ha, hb]

theorem g0_div {a b : Dual} (ha : a.grad = 0) (hb : b.grad = 0) :
    (Dual.div a b).grad = 0 := by
  simp [Dual.div, ha, hb]

theorem g0_smul {c : ℚ} {a : Dual} (ha : a.grad = 0) :
    (Dual.smul c a).grad = 0 := by
  simp [Dual.smul, ha]

theorem g0_lift {f fd : ℚ → ℚ} {a : Dual} (ha : a.grad = 0) :
    (Dual.lift f fd a).grad = 0 := by
  simp [Dual.lift, ha]

theorem g0_dmin {a b : Dual} (ha : a.grad = 0) (hb : b.grad = 0) :
    (Dual.dmin a b).grad = 0 := by
  unfold Dual.dmin; split <;> assumption

theorem g0_dmax {a b : Dual} (ha : a.grad = 0) (hb : b.grad = 0) :
    (Dual.dmax a b).grad = 0 := by
  unfold Dual.dmax; split <;> assumption

theorem g0_dselMin {a b : Dual} (ha : a.grad = 0) (hb : b.grad = 0) :
    (dselMin a b).grad = 0 := by
  unfold dselMin; split <;> assumption

theorem g0_dselMax {a b : Dual} (ha : a.grad = 0) (hb : b.grad = 0) :
    (dselMax a b).grad = 0 := by
  unfold dselMax; split <;> assumption

theorem g0_dvsum {n : ℕ} {v : Fin n → Dual} (h : ∀ i, (v i).grad = 0) :
    (dvsum v).grad = 0 := by
  simp [dvsum, vsum, h]

theorem g0_dvmean {n : ℕ} {v : Fin n → Dual} (h : ∀ i, (v i).grad = 0) :
    (dvmean v).grad = 0 := by
  simp [dvmean, vmean, vsum, h]

theorem g0_dvmean2 {s n : ℕ} {t : Fin s → Fin n → Dual}
    (h : ∀ k i, (t k i).grad = 0) : (dvmean2 t).grad = 0 := by
  simp [dvmean2, vmean2, h]

theorem g0_foldl_dselMin : ∀ (xs : List Dual) (a : Dual), a.grad = 0 →
    (∀ b ∈ xs, b.grad = 0) → (xs.foldl dselMin a).grad = 0 := by
  intro xs
  induction xs with
  | nil => intro a ha _; exact ha
  | cons x xs ih =>
    intro a ha hmem
    exact ih (dselMin a x)
      (g0_dselMin ha (hmem x (List.mem_cons_self x xs)))
      (fun b hb => hmem b (List.mem_cons_of_mem x hb))

theorem g0_foldl_dselMax : ∀ (xs : List Dual) (a : Dual), a.grad = 0 →
    (∀ b ∈ xs, b.grad = 0) → (xs.foldl dselMax a).grad = 0 := by
  intro xs
  induction xs with
  | nil => intro a ha _; exact ha
  | cons x xs ih =>
    intro a ha hmem
    exact ih (dselMax a x)
      (g0_dselMax ha (hmem x (List.mem_cons_self x xs)))
      (fun b hb => hmem b (List.mem_cons_of_mem x hb))

theorem g0_gminD {n : ℕ} {t : Fin n → Dual} (h : ∀ i, (t i).grad = 0) :
    (gminD t).grad = 0 := by
  unfold gminD
  split
  · rfl
  · rename_i x xs heq
    have hmem : ∀ b ∈ x :: xs, b.grad = 0 := by
      intro b hb
      rw [← heq] at hb
      obtain ⟨i, rfl⟩ := (List.mem_ofFn t b).mp hb
      exact h i
    exact g0_foldl_dselMin xs x (hmem x (List.mem_cons_self x xs))
      (fun b hb => hmem b (List.mem_cons_of_mem x hb))

theorem g0_gmaxD {n : ℕ} {t : Fin n → Dual} (h : ∀ i, (t i).grad = 0) :
    (gmaxD t).grad = 0 := by
  unfold gmaxD
  split
  · rfl
  · rename_i x xs heq
    have hmem : ∀ b ∈ x :: xs, b.grad = 0 := by
      intro b hb
      rw [← heq] at hb
      obtain ⟨i, rfl⟩ := (List.mem_ofFn t b).mp hb
      exact h i
    exact g0_foldl_dselMax xs x (hmem x (List.mem_cons_self x xs))
      (fun b hb => hmem b (List.mem_cons_of_mem x hb))

theorem g0_torchMinListD {n : ℕ} {ts : List (Fin n → Dual)}
    {v : Fin n → Dual} (h : ∀ t ∈ ts, ∀ i, (t i).grad = 0)
    (hv : torchMinListD ts = some v) : ∀ i, (v i).grad = 0 := by
  unfold torchMinListD at hv
  split at hv
  · rename_i t
    cases hv
    intro i
    exact g0_gminD (h t (List.mem_cons_self t []))
  · rename_i a b
    cases hv
    intro i
    exact g0_dmin (h a (by simp) i) (h b (by simp) i)
  · cases hv

theorem g0_torchMaxListD {n : ℕ} {ts : List (Fin n → Dual)}
    {v : Fin n → Dual} (h : ∀ t ∈ ts, ∀ i, (t i).grad = 0)
    (hv : torchMaxListD ts = some v) : ∀ i, (v i).grad = 0 := by
  unfold torchMaxListD at hv
  split at hv
  · rename_i t
    cases hv
    intro i
    exact g0_gmaxD (h t (List.mem_cons_self t []))
  · rename_i a b
    cases hv
    intro i
    exact g0_dmax (h a (by simp) i) (h b (by simp) i)
  · cases hv

theorem g0_dvstd {n : ℕ} {qsqrt qsqrtd : ℚ → ℚ} {v : Fin n → Dual}
    (h : ∀ i, (v i).grad = 0) : (dvstd qsqrt qsqrtd v).grad = 0 := by
  unfold dvstd
  exact g0_lift (g0_smul (g0_dvsum (fun i =>
    g0_mul (g0_sub (h i) (g0_dvmean h)) (g0_sub (h i) (g0_dvmean h)))))

/-! ### Claim theorems -/

/-- C2: in `bellman`, `clipped_double_bellman` and `sac`, the bootstrapped TD
target `reward + gamma * (1 - done) * next_value` is detached before being
combined with the live Q predictions: in the forward-mode semantics, when
every input reaching the loss other than through the target path carries
derivative zero with respect to a target-network parameter (the batch data,
the live critic outputs, `log_alpha` and the sampled log-likelihoods), while
the target-network outputs carry arbitrary derivatives, every returned loss
has derivative zero with respect to that parameter. -/
theorem C2_td_target_detached_zero_grad :
    (∀ {n s : ℕ} (q : Fin n → Dual) (targ_q : Fin s → Fin n → Dual)
      (rews dones : Fin n → Dual) (gamma : ℚ) (cont det : Bool)
      (red : String) (out : DTOut n),
      (∀ i, (q i).grad = 0) → (∀ i, (rews i).grad = 0) →
      (∀ i, (dones i).grad = 0) →
      bellmanD q targ_q rews dones gamma cont det red = Except.ok out →
      DTOutGradZero out)
    ∧ (∀ {n : ℕ} (qlog qlogd : ℚ → ℚ) (q : Fin n → Dual)
      (targ_qf1_max : Dual → Dual × Dual) (targ_qf2 : Dual → Dual → Dual)
      (next_obs rews dones : Fin n → Dual) (gamma : ℚ) (lt : String)
      (x : Dual),
      (∀ i, (q i).grad = 0) → (∀ i, (rews i).grad = 0) →
      (∀ i, (dones i).grad = 0) →
      clipped_double_bellmanD qlog qlogd q targ_qf1_max targ_qf2 next_obs
        rews dones gamma lt = Except.ok x →
      x.grad = 0)
    ∧ (∀ {n s : ℕ} (qexp qexpd qsqrt qsqrtd : ℚ → ℚ)
      (qfs targ_qfs : List (Dual → Dual → Dual)) (log_alpha : Dual)
      (obs acs rews next_obs dones : Fin n → Dual)
      (sampled_acs sampled_next_acs sampled_llh sampled_next_llh :
        Fin s → Fin n → Dual)
      (gamma : ℚ) (reparam normalize : Bool) (eps ac_dim : ℚ)
      (out : Dual × List Dual × Dual),
      log_alpha.grad = 0 →
      (∀ i, (obs i).grad = 0) → (∀ i, (acs i).grad = 0) →
      (∀ i, (rews i).grad = 0) → (∀ i, (dones i).grad = 0) →
      (∀ k i, (sampled_acs k i).grad = 0) →
      (∀ k i, (sampled_llh k i).grad = 0) →
      (∀ qf ∈ qfs, ∀ x y : Dual, x.grad = 0 → y.grad = 0 →
        (qf x y).grad = 0) →
      sacD qexp qexpd qsqrt qsqrtd qfs targ_qfs log_alpha obs acs rews
        next_obs dones sampled_acs sampled_next_acs sampled_llh
        sampled_next_llh gamma reparam normalize eps ac_dim = some out →
      out.1.grad = 0 ∧ (∀ l ∈ out.2.1, l.grad = 0) ∧ out.2.2.grad = 0) := by
  refine ⟨?_, ?_, ?_⟩
  · -- bellman
    intro n s q targ_q rews dones gamma cont det red out hq hr hd hout
    cases cont
    · simp [bellmanD] at hout
    · simp only [bellmanD, if_true] at hout
      split at hout
      · cases hout
        simp only [DTOutGradZero]
        split
        · exact g0_dvmean (fun i => g0_smul
            (g0_mul (g0_sub (hq i) (g0_detach _)) (g0_sub (hq i) (g0_detach _))))
        · exact g0_dvsum (fun i => g0_smul
            (g0_mul (g0_sub (hq i) (g0_detach _)) (g0_sub (hq i) (g0_detach _))))
      · cases hout
        simp only [DTOutGradZero]
        exact fun i => g0_smul
          (g0_mul (g0_sub (hq i) (g0_detach _)) (g0_sub (hq i) (g0_detach _)))
  · -- clipped_double_bellman
    intro n qlog qlogd q targ_qf1_max targ_qf2 next_obs rews dones gamma lt x
      hq hr hd hout
    simp only [clipped_double_bellmanD] at hout
    split at hout
    · cases hout
      exact g0_dvmean (fun i => g0_neg (g0_add
        (g0_mul (g0_detach _) (g0_lift (hq i)))
        (g0_mul (g0_sub (g0_ofRat 1) (g0_detach _))
          (g0_lift (g0_sub (g0_ofRat 1) (hq i))))))
    · split at hout
      · cases hout
        exact g0_dvmean (fun i => g0_smul
          (g0_mul (g0_sub (hq i) (g0_detach _)) (g0_sub (hq i) (g0_detach _))))
      · cases hout
  · -- sac
    intro n s qexp qexpd qsqrt qsqrtd qfs targ_qfs log_alpha obs acs rews
      next_obs dones sampled_acs sampled_next_acs sampled_llh
      sampled_next_llh gamma reparam normalize eps ac_dim out hla hobs hacs
      hr hd hsacs hsllh hqfs hout
    have halpha : (Dual.lift qexp qexpd log_alpha).grad = 0 := g0_lift hla
    have hsq : ∀ t ∈ qfs.map (fun qf =>
        fun (k : Fin s) (i : Fin n) => qf (obs i) (sampled_acs k i)),
        ∀ k i, (t k i).grad = 0 := by
      intro t ht k i
      obtain ⟨qf, hqf, rfl⟩ := List.mem_map.mp ht
      exact hqfs qf hqf _ _ (hobs i) (hsacs k i)
    simp only [sacD] at hout
    split at hout
    · exact absurd hout (by simp)
    · rename_i next_v hmin
      split at hout
      · exact absurd hout (by simp)
      · rename_i pol_loss0 hpol
        cases hout
        refine ⟨?_, ?_, ?_⟩
        · -- pol_loss
          show pol_loss0.grad = 0
          split at hpol
          · -- reparam
            obtain ⟨w, hw, hfw⟩ := Option.map_eq_some'.mp hpol
            have hmem : ∀ t ∈ (qfs.map (fun qf =>
                fun (k : Fin s) (i : Fin n) => qf (obs i) (sampled_acs k i))).map
                  (fun sampled_q => fun i => dvmean (fun k => Dual.sub
                    (Dual.mul (Dual.lift qexp qexpd log_alpha) (sampled_llh k i))
                    (sampled_q k i))),
                ∀ i, (t i).grad = 0 := by
              intro t ht i
              obtain ⟨sampled_q, hsq2, rfl⟩ := List.mem_map.mp ht
              exact g0_dvmean (fun k => g0_sub
                (g0_mul halpha (hsllh k i)) (hsq sampled_q hsq2 k i))
            rw [← hfw]
            exact g0_dvmean (g0_torchMaxListD hmem hw)
          · -- likelihood-ratio branch
            obtain ⟨w, hw, hfw⟩ := Option.map_eq_some'.mp hpol
            have hmem : ∀ t ∈ (qfs.map (fun qf =>
                fun (k : Fin s) (i : Fin n) => qf (obs i) (sampled_acs k i))).map
                  (fun sampled_q => fun i => Dual.detach (dvmean (fun k =>
                    Dual.sub (Dual.mul (Dual.lift qexp qexpd log_alpha)
                      (sampled_llh k i)) (sampled_q k i)))),
                ∀ i, (t i).grad = 0 := by
              intro t ht i
              obtain ⟨sampled_q, _, rfl⟩ := List.mem_map.mp ht
              exact g0_detach _
            have hw0 : ∀ i, (w i).grad = 0 := g0_torchMaxListD hmem hw
            rw [← hfw]
            split
            · exact g0_dvmean (fun i => g0_mul
                (g0_dvmean (fun k => hsllh k i))
                (g0_div (g0_sub (hw0 i) (g0_dvmean hw0))
                  (g0_add (g0_dvstd hw0) (g0_ofRat eps))))
            · exact g0_dvmean (fun i => g0_mul
                (g0_dvmean (fun k => hsllh k i)) (hw0 i))
        · -- qf_losses
          intro l hl
          obtain ⟨q1, hq1, rfl⟩ := List.mem_map.mp hl
          obtain ⟨qf, hqf, rfl⟩ := List.mem_map.mp hq1
          exact g0_smul (g0_dvmean (fun i => g0_mul
            (g0_sub (hqfs qf hqf _ _ (hobs i) (hacs i)) (g0_detach _))
            (g0_sub (hqfs qf hqf _ _ (hobs i) (hacs i)) (g0_detach _))))
        · -- alpha_loss
          exact g0_neg (g0_dvmean2 (fun k i => g0_mul hla (g0_detach _)))

/-- C2 witness: the detachment theorem applied at concrete inputs for all
three losses, with target-network outputs carrying nonzero derivatives and
every hypothesis discharged concretely. -/
theorem C2_td_target_detached_zero_grad_witness :
    DTOutGradZero (n := 1) (DTOut.scalar ⟨0, 0⟩)
    ∧ ((⟨0, 0⟩ : Dual)).grad = 0
    ∧ (((⟨0, 0⟩ : Dual), [(⟨0, 0⟩ : Dual)], (⟨0, 0⟩ : Dual)).1.grad = 0
      ∧ (∀ l ∈ ((⟨0, 0⟩ : Dual), [(⟨0, 0⟩ : Dual)],
          (⟨0, 0⟩ : Dual)).2.1, l.grad = 0)
      ∧ (((⟨0, 0⟩ : Dual), [(⟨0, 0⟩ : Dual)],
          (⟨0, 0⟩ : Dual)).2.2.grad = 0)) := by
  refine ⟨?_, ?_, ?_⟩
  · exact C2_td_target_detached_zero_grad.1 (fun _ : Fin 1 => ⟨0, 0⟩)
      (fun (_ : Fin 1) (_ : Fin 1) => (⟨0, 7⟩ : Dual)) (fun _ => ⟨0, 0⟩)
      (fun _ => ⟨0, 0⟩) 1 true true "elementwise_mean" (DTOut.scalar ⟨0, 0⟩)
      (fun _ => rfl) (fun _ => rfl) (fun _ => rfl)
      (by simp [bellmanD, Dual.add, Dual.mul, Dual.sub, Dual.smul,
        Dual.detach, Dual.ofRat, dvmean, vmean, vsum, Fin.sum_univ_succ])
  · exact C2_td_target_detached_zero_grad.2.1 (fun _ => 0) (fun _ => 0)
      (fun _ : Fin 1 => ⟨0, 0⟩) (fun d => (Dual.mk d.val 3, d))
      (fun _ _ => ⟨0, 5⟩) (fun _ => ⟨0, 0⟩) (fun _ => ⟨0, 0⟩)
      (fun _ => ⟨0, 0⟩) 1 "mse" ⟨0, 0⟩
      (fun _ => rfl) (fun _ => rfl) (fun _ => rfl)
      (by simp [clipped_double_bellmanD, Dual.add, Dual.mul, Dual.sub,
        Dual.smul, Dual.detach, Dual.ofRat, Dual.dmin, dvmean, vmean, vsum,
        Fin.sum_univ_succ])
  · exact C2_td_target_detached_zero_grad.2.2 (fun _ => 1) (fun _ => 1)
      (fun _ => 0) (fun _ => 0) [fun _ _ => ⟨0, 0⟩] [fun _ _ => ⟨0, 9⟩]
      ⟨0, 0⟩ (fun _ : Fin 1 => ⟨0, 0⟩) (fun _ => ⟨0, 0⟩) (fun _ => ⟨0, 0⟩)
      (fun _ => ⟨0, 0⟩) (fun _ => ⟨0, 0⟩)
      (fun (_ : Fin 1) (_ : Fin 1) => (⟨0, 0⟩ : Dual)) (fun _ _ => ⟨0, 0⟩)
      (fun _ _ => ⟨0, 0⟩) (fun _ _ => ⟨0, 0⟩) 1 true false 0 1
      (⟨0, 0⟩, [⟨0, 0⟩], ⟨0, 0⟩) rfl (fun _ => rfl) (fun _ => rfl)
      (fun _ => rfl) (fun _ => rfl) (fun _ _ => rfl) (fun _ _ => rfl)
      (by intro qf hqf x y hx hy
          rw [List.mem_singleton] at hqf
          subst hqf
          rfl)
      (by simp [sacD, Dual.add, Dual.mul, Dual.sub, Dual.smul, Dual.detach,
        Dual.ofRat, Dual.lift, Dual.neg, Dual.dmin, Dual.dmax, dvmean,
        dvmean2, vmean, vmean2, vsum, torchMinListD, torchMaxListD, gminD,
        gmaxD, dselMin, dselMax, List.ofFn_succ, Fin.sum_univ_succ])

/-- C10: `shannon_cross_entropy` never applies the output mask it constructs:
the returned loss is the plain unmasked mean of `KL(teacher‖student)` minus
the teacher entropy, and its value is independent of `batch['out_masks']`
(and of the `rews` field whose shape builds the all-ones mask), so padded
positions contribute fully to the mean. -/
theorem C10_shannon_cross_entropy_ignores_mask {n : ℕ} (rnn rnn' : Bool)
    (out_masks_b out_masks_b' rews rews' kl ent : Fin n → ℚ) :
    shannon_cross_entropy rnn out_masks_b rews kl ent
      = shannon_cross_entropy rnn' out_masks_b' rews' kl ent
    ∧ shannon_cross_entropy rnn out_masks_b rews kl ent
      = vmean (fun i => kl i - ent i) := by
  exact ⟨rfl, rfl⟩

/-- C5 counterexample: with an all-zero output mask but a nonzero entropy
coefficient, `pg_clip` returns the (unmasked) entropy term `-1`, not the
exact zero the claim requires of every loss using the masked reduction. -/
theorem C5_counterexample_all_zero_mask_nonzero :
    pg_clip (fun _ => 1) true ![0] ![1] ![0] ![0] ![1] (1 / 2) 1 ≠ 0 := by
  have h : pg_clip (fun _ => 1) true ![0] ![1] ![0] ![0] ![1] (1 / 2) 1
      = -1 := by
    simp [pg_clip, pg_clip_loss1, pg_clip_loss2, pg_clip_r, clamp, vmean,
      vsum, Fin.sum_univ_succ]
  rw [h]; norm_num

/-- C5 (amended): for the losses with an entropy term (`pg`, `pg_clip`,
`pg_kl`) taken with entropy coefficient `0`, and for `monte_carlo` and
`dynamics` unconditionally, the masked reduction satisfies: with an all-ones
mask the result equals the unmasked (non-recurrent) computation, and with an
all-zero mask the result is exactly zero; moreover the reduction is the plain
mean of `loss * mask` over all elements, never renormalized by the mask sum
(shown for the unclipped `monte_carlo` and for `dynamics`).  With a nonzero
entropy coefficient the all-zero-mask result is instead the unmasked entropy
term (see the counterexample). -/
theorem C5_masked_reduction_amended {n d : ℕ}
    (out_masks_b advs llh old_llh new_llh kl ent vs rets old_vs : Fin n → ℚ)
    (pred obs next_obs rews2 : Fin n → Fin d → ℚ)
    (qexp : ℚ → ℚ) (clip_param kl_beta : ℚ) (clip td : Bool)
    (target : String) :
    (pg true (fun _ => 1) advs llh ent 0
        = pg false out_masks_b advs llh ent 0
      ∧ pg true (fun _ => 0) advs llh ent 0 = 0)
    ∧ (pg_clip qexp true (fun _ => 1) advs old_llh new_llh ent clip_param 0
        = pg_clip qexp false out_masks_b advs old_llh new_llh ent clip_param 0
      ∧ pg_clip qexp true (fun _ => 0) advs old_llh new_llh ent clip_param 0
        = 0)
    ∧ (pg_kl qexp true (fun _ => 1) advs old_llh new_llh kl ent kl_beta 0
        = pg_kl qexp false out_masks_b advs old_llh new_llh kl ent kl_beta 0
      ∧ pg_kl qexp true (fun _ => 0) advs old_llh new_llh kl ent kl_beta 0
        = 0)
    ∧ (monte_carlo true (fun _ => 1) vs rets old_vs clip_param clip
        = monte_carlo false out_masks_b vs rets old_vs clip_param clip
      ∧ monte_carlo true (fun _ => 0) vs rets old_vs clip_param clip = 0)
    ∧ (dynamics true (fun _ => 1) pred obs next_obs rews2 target td
        = dynamics false out_masks_b pred obs next_obs rews2 target td
      ∧ dynamics true (fun _ => 0) pred obs next_obs rews2 target td = 0)
    ∧ monte_carlo true out_masks_b vs rets old_vs clip_param false
        = (1 / 2) * vmean (fun i => (vs i - rets i) ^ 2 * out_masks_b i)
    ∧ dynamics true out_masks_b pred obs next_obs rews2 target td
        = (1 / 2) * vmean (fun i =>
            vmean (fun j =>
              if target = "rews" ∨ ¬ td then
                (pred i j - (if target = "rews" then rews2 i j
                  else next_obs i j)) ^ 2
              else (pred i j - (next_obs i j - obs i j)) ^ 2)
            * out_masks_b i) := by
  refine ⟨⟨?_, ?_⟩, ⟨?_, ?_⟩, ⟨?_, ?_⟩, ⟨?_, ?_⟩, ⟨?_, ?_⟩, ?_, ?_⟩ <;>
    simp [pg, pg_clip, pg_kl, monte_carlo, dynamics, vmean, vsum,
      Finset.sum_div, mul_comm]

/-- C8: in `bellman` with `gamma = 0` and all done flags `0`, the bootstrap
target equals the immediate rewards tensor exactly, so the returned loss is
pure regression of `Q(obs, acs)` toward the rewards, independent of the
target-policy samples and target-critic outputs, for every reduction mode
(all outputs are exact rationals here, so the finiteness proviso is
automatic). -/
theorem C8_bellman_gamma_zero_pure_regression {n s s' : ℕ}
    (q rews : Fin n → ℚ) (targ_q : Fin s → Fin n → ℚ)
    (targ_q' : Fin s' → Fin n → ℚ) (reduction : String) (det det' : Bool) :
    bellman q targ_q rews (fun _ => 0) 0 true det reduction
      = bellman q targ_q' rews (fun _ => 0) 0 true det' reduction
    ∧ bellman q targ_q rews (fun _ => 0) 0 true det "elementwise_mean"
      = Except.ok (TOut.scalar (vmean (fun i => (1 / 2) * (q i - rews i) ^ 2)))
    ∧ bellman q targ_q rews (fun _ => 0) 0 true det "sum"
      = Except.ok (TOut.scalar (vsum (fun i => (1 / 2) * (q i - rews i) ^ 2)))
    ∧ bellman q targ_q rews (fun _ => 0) 0 true det "none"
      = Except.ok (TOut.tensor (fun i => (1 / 2) * (q i - rews i) ^ 2)) := by
  refine ⟨?_, ?_, ?_, ?_⟩ <;> simp [bellman]

/-- C9: in `dynamics` with `td = true` and `target = 'next_obs'`, the
per-element squared error is computed against the delta `next_obs - obs`, not
against `next_obs` directly: for every batch with a nonzero observation the
loss equals `0.5` times the masked mean over the batch of the
feature-dimension mean of `(pred - (next_obs - obs))^2`; and at a concrete
batch with nonzero `obs` the `td = true` loss (`1/2`) differs from the loss
computed against `next_obs` directly (`0`). -/
theorem C9_dynamics_td_delta_target {n d : ℕ} (rnn : Bool)
    (out_masks_b : Fin n → ℚ) (pred obs next_obs rews2 : Fin n → Fin d → ℚ)
    (hobs : ∃ i j, obs i j ≠ 0) :
    dynamics rnn out_masks_b pred obs next_obs rews2 "next_obs" true
      = (1 / 2) * vmean (fun i =>
          vmean (fun j => (pred i j - (next_obs i j - obs i j)) ^ 2)
            * (if rnn then out_masks_b i else 1))
    ∧ dynamics false (fun _ => 1) ![![0]] ![![1]] ![![0]] ![![0]]
        "next_obs" true = 1 / 2
    ∧ dynamics false (fun _ => 1) ![![0]] ![![1]] ![![0]] ![![0]]
        "next_obs" false = 0 := by
  refine ⟨?_, ?_, ?_⟩
  · cases rnn <;> simp [dynamics, vmean, vsum]
  · simp [dynamics, vmean, vsum, Fin.sum_univ_succ]
  · simp [dynamics, vmean, vsum, Fin.sum_univ_succ]

/-- C9 witness: the delta-target theorem applied at a concrete batch with
nonzero observation, extracting the concrete `td = true` evaluation. -/
theorem C9_dynamics_td_delta_target_witness :
    dynamics false (fun _ => 1) ![![0]] ![![1]] ![![0]] ![![0]]
      "next_obs" true = 1 / 2 :=
  (C9_dynamics_td_delta_target false (fun _ => 1) ![![0]] ![![1]] ![![0]]
    ![![0]] ⟨0, 0, by norm_num⟩).2.1

/-- C3 counterexample: `bellman` called with the unsupported reduction string
`"mean"` does not raise — it silently falls back to the sum reduction and
returns a value. -/
theorem C3_counterexample_unknown_reduction_silent :
    bellman (n := 1) (s := 1) ![0] (fun _ => ![0]) ![0] ![0] 0 true true
        "mean" = Except.ok (TOut.scalar 0) := by
  simp [bellman, vmean, vsum, Fin.sum_univ_succ]

/-- C3 (amended): `bellman` with `continuous = False` and
`clipped_double_bellman` with a `loss_type` other than `'bce'` or `'mse'`
fail immediately at call time with no partial result; but `bellman` with a
reduction string other than `'none'` and `'elementwise_mean'` does not raise:
it silently computes the sum-reduced loss. -/
theorem C3_unsupported_configuration_amended :
    (∀ {n s : ℕ} (q : Fin n → ℚ) (targ_q : Fin s → Fin n → ℚ)
      (rews dones : Fin n → ℚ) (gamma : ℚ) (det : Bool) (red : String),
      bellman q targ_q rews dones gamma false det red
        = Except.error bellmanNotImplErr)
    ∧ (∀ {n : ℕ} (qlog : ℚ → ℚ) (q : Fin n → ℚ) (tmax : ℚ → ℚ × ℚ)
      (tqf2 : ℚ → ℚ → ℚ) (next_obs rews dones : Fin n → ℚ) (gamma : ℚ)
      (lt : String), lt ≠ "bce" → lt ≠ "mse" →
      clipped_double_bellman qlog q tmax tqf2 next_obs rews dones gamma lt
        = Except.error cdbLossTypeErr)
    ∧ (∀ {n s : ℕ} (q : Fin n → ℚ) (targ_q : Fin s → Fin n → ℚ)
      (rews dones : Fin n → ℚ) (gamma : ℚ) (det : Bool) (red : String),
      red ≠ "none" → red ≠ "elementwise_mean" →
      bellman q targ_q rews dones gamma true det red
        = Except.ok (TOut.scalar (vsum (fun i => (1 / 2) *
            (q i - (rews i + gamma * vmean (fun k => targ_q k i)
              * (1 - dones i))) ^ 2)))) := by
  refine ⟨?_, ?_, ?_⟩
  · intro n s q targ_q rews dones gamma det red
    simp [bellman]
  · intro n qlog q tmax tqf2 next_obs rews dones gamma lt h1 h2
    simp [clipped_double_bellman, h1, h2]
  · intro n s q targ_q rews dones gamma det red h1 h2
    simp [bellman, h1, h2]

/-- C3 witness: the amended theorem applied at concrete inputs, discharging
the string hypotheses. -/
theorem C3_unsupported_configuration_amended_witness :
    bellman (n := 1) (s := 1) ![0] (fun _ => ![0]) ![0] ![0] 0 false true
        "elementwise_mean" = Except.error bellmanNotImplErr
    ∧ clipped_double_bellman (n := 1) (fun _ => 0) ![0] (fun o => (o, o))
        (fun o _ => o) ![0] ![0] ![0] 1 "huber" = Except.error cdbLossTypeErr
    ∧ bellman (n := 1) (s := 1) ![0] (fun _ => ![0]) ![0] ![0] 0 true true
        "mean2" = Except.ok (TOut.scalar (vsum (fun i => (1 / 2) *
          ((![0] : Fin 1 → ℚ) i - ((![0] : Fin 1 → ℚ) i
            + 0 * vmean (fun k : Fin 1 => (fun _ => (![0] : Fin 1 → ℚ)) k i)
            * (1 - (![0] : Fin 1 → ℚ) i))) ^ 2))) := by
  refine ⟨?_, ?_, ?_⟩
  · exact C3_unsupported_configuration_amended.1 ![0] (fun _ => ![0]) ![0]
      ![0] 0 true "elementwise_mean"
  · exact C3_unsupported_configuration_amended.2.1 (fun _ => 0) ![0]
      (fun o => (o, o)) (fun o _ => o) ![0] ![0] ![0] 1 "huber"
      (by decide) (by decide)
  · exact C3_unsupported_configuration_amended.2.2 ![0] (fun _ => ![0]) ![0]
      ![0] 0 true "mean2" (by decide) (by decide)

/-- C4 counterexample: with the exponential instantiated so that
`qexp 0 = 1`, equal old and new log-likelihoods (`ratio = 1` everywhere), a
positive clip parameter and entropy coefficient `0`, `pg_clip` returns `-1`
on a one-element batch with advantage `1` and `llh = 5`, while `pg` on the
same batch returns `-5`: the `pg_clip` result does not equal the `pg`
result. -/
theorem C4_counterexample_pg_clip_ne_pg :
    pg_clip (fun x => 1 + x) false ![1] ![1] ![5] ![5] ![0] (1 / 2) 0
      ≠ pg false ![1] ![1] ![5] ![0] 0 := by
  have h1 : pg_clip (fun x => 1 + x) false ![1] ![1] ![5] ![5] ![0]
      (1 / 2) 0 = -1 := by
    simp [pg_clip, pg_clip_loss1, pg_clip_loss2, pg_clip_r, clamp, vmean,
      vsum, Fin.sum_univ_succ]
  have h2 : pg false ![1] ![1] ![5] ![0] 0 = -5 := by
    simp [pg, vmean, vsum, Fin.sum_univ_succ]
  rw [h1, h2]; norm_num

/-- C4 (amended): when the importance ratio equals `1` at every element
(equal old and new log-likelihoods, with `exp 0 = 1`) and `clip_param > 0`,
the unclipped term `pol_loss1` equals the clipped term `pol_loss2`
elementwise, and the `pg_clip` result (modulo entropy term) equals the
unclipped surrogate: the mean of `pol_loss1 * mask`, which is
`-mean(advs * mask)`, for any advantage values.  It does not in general equal
the `pg` result, which weights advantages by the log-likelihood instead of
the ratio (see the counterexample). -/
theorem C4_ratio_one_amended {n : ℕ} (qexp : ℚ → ℚ)
    (out_masks_b advs llh ent : Fin n → ℚ) (clip_param ent_beta : ℚ)
    (hexp : qexp 0 = 1) (hcp : 0 < clip_param) :
    (∀ i, pg_clip_loss1 qexp llh llh advs i
      = pg_clip_loss2 qexp llh llh advs clip_param i)
    ∧ pg_clip qexp true out_masks_b advs llh llh ent clip_param ent_beta
      = vmean (fun i => pg_clip_loss1 qexp llh llh advs i * out_masks_b i)
        - ent_beta * vmean ent
    ∧ pg_clip qexp true out_masks_b advs llh llh ent clip_param ent_beta
      = - vmean (fun i => advs i * out_masks_b i) - ent_beta * vmean ent := by
  have hr : ∀ i, pg_clip_r qexp llh llh i = 1 := by
    intro i; simp [pg_clip_r, hexp]
  have h1 : ∀ i, pg_clip_loss1 qexp llh llh advs i = - advs i := by
    intro i; simp [pg_clip_loss1, hr]
  have h2 : ∀ i, pg_clip_loss2 qexp llh llh advs clip_param i = - advs i := by
    intro i
    simp only [pg_clip_loss2, hr, clamp]
    rw [max_eq_left (by linarith), min_eq_left (by linarith)]
    ring
  have hbody : (fun i => max (pg_clip_loss1 qexp llh llh advs i)
      (pg_clip_loss2 qexp llh llh advs clip_param i) * out_masks_b i)
      = fun i => pg_clip_loss1 qexp llh llh advs i * out_masks_b i := by
    funext i; rw [h1 i, h2 i, max_self]
  refine ⟨fun i => (h1 i).trans (h2 i).symm, ?_, ?_⟩
  · simp only [pg_clip, if_true]
    rw [hbody]
  · simp only [pg_clip, if_true]
    rw [hbody]
    congr 1
    rw [show (fun i => pg_clip_loss1 qexp llh llh advs i * out_masks_b i)
        = fun i => -(advs i * out_masks_b i) from
      funext fun i => by rw [h1 i]; ring]
    simp [vmean, vsum, Finset.sum_neg_distrib, neg_div]

/-- C4 witness: the amended theorem applied at a concrete input with
`qexp = fun x => 1 + x` (so `qexp 0 = 1`) and `clip_param = 1/2 > 0`. -/
theorem C4_ratio_one_amended_witness :
    (∀ i : Fin 1, pg_clip_loss1 (fun x => 1 + x) ![5] ![5] ![1] i
      = pg_clip_loss2 (fun x => 1 + x) ![5] ![5] ![1] (1 / 2) i)
    ∧ pg_clip (fun x => 1 + x) true ![1] ![1] ![5] ![5] ![0] (1 / 2) 0
      = vmean (fun i => pg_clip_loss1 (fun x => 1 + x) ![5] ![5] ![1] i
          * (![1] : Fin 1 → ℚ) i) - 0 * vmean ![0]
    ∧ pg_clip (fun x => 1 + x) true ![1] ![1] ![5] ![5] ![0] (1 / 2) 0
      = - vmean (fun i => (![1] : Fin 1 → ℚ) i * (![1] : Fin 1 → ℚ) i)
        - 0 * vmean ![0] :=
  C4_ratio_one_amended (fun x => 1 + x) ![1] ![1] ![5] ![0] (1 / 2) 0
    (by norm_num) (by norm_num)

/-- C7: for a batch of 4 transitions with advantages `[1, -1, 2, -2]`, a
non-recurrent policy (so the mask defaults to all ones), any `clip_param > 0`
and equal old and new log-likelihoods (ratio `1` with `exp 0 = 1`), the
`pg_clip` loss with entropy coefficient `0` equals `-mean(advantages) = 0`
exactly. -/
theorem C7_pg_clip_concrete_zero (qexp : ℚ → ℚ)
    (out_masks_b llh ent : Fin 4 → ℚ) (clip_param : ℚ)
    (hexp : qexp 0 = 1) (hcp : 0 < clip_param) :
    pg_clip qexp false out_masks_b ![1, -1, 2, -2] llh llh ent clip_param 0
      = 0 := by
  have hr : ∀ i, pg_clip_r qexp llh llh i = 1 := by
    intro i; simp [pg_clip_r, hexp]
  have h1 : ∀ i, pg_clip_loss1 qexp llh llh ![1, -1, 2, -2] i
      = - (![1, -1, 2, -2] : Fin 4 → ℚ) i := by
    intro i; simp [pg_clip_loss1, hr]
  have h2 : ∀ i, pg_clip_loss2 qexp llh llh ![1, -1, 2, -2] clip_param i
      = - (![1, -1, 2, -2] : Fin 4 → ℚ) i := by
    intro i
    simp only [pg_clip_loss2, hr, clamp]
    rw [max_eq_left (by linarith), min_eq_left (by linarith)]
    ring
  simp only [pg_clip, Bool.false_eq_true, if_false]
  rw [show (fun i => max (pg_clip_loss1 qexp llh llh ![1, -1, 2, -2] i)
      (pg_clip_loss2 qexp llh llh ![1, -1, 2, -2] clip_param i)
      * (fun _ => (1 : ℚ)) i)
      = fun i => - (![1, -1, 2, -2] : Fin 4 → ℚ) i from
    funext fun i => by rw [h1 i, h2 i, max_self]; ring]
  simp [vmean, vsum, Fin.sum_univ_succ]

/-- C7 witness: the concrete-scenario theorem applied with
`qexp = fun x => 1 + x` and `clip_param = 1/2`. -/
theorem C7_pg_clip_concrete_zero_witness :
    pg_clip (fun x => 1 + x) false (fun _ => 1) ![1, -1, 2, -2] (fun _ => 3)
      (fun _ => 3) (fun _ => 0) (1 / 2) 0 = 0 :=
  C7_pg_clip_concrete_zero (fun x => 1 + x) (fun _ => 1) (fun _ => 3)
    (fun _ => 0) (1 / 2) (by norm_num) (by norm_num)

/-- C6: when the two target critics coincide as functions (expressed through
the greedy-max capability: the max value returned by `targ_qf1.max` equals
`targ_qf2` evaluated at the argmax action), the elementwise minimum of the
two target Q-values is a no-op, and `clipped_double_bellman` with
`loss_type = 'mse'` returns the same scalar as `bellman`'s
mean-squared-error form on the same batch, with the single target critic
evaluated at the greedy next action (one sample). -/
theorem C6_cdb_mse_equals_bellman {n : ℕ} (qlog : ℚ → ℚ) (q : Fin n → ℚ)
    (targ_qf1_max : ℚ → ℚ × ℚ) (targ_qf2 : ℚ → ℚ → ℚ)
    (next_obs rews dones : Fin n → ℚ) (gamma : ℚ) (det : Bool)
    (hsame : ∀ o, (targ_qf1_max o).1 = targ_qf2 o (targ_qf1_max o).2) :
    clipped_double_bellman qlog q targ_qf1_max targ_qf2 next_obs rews dones
        gamma "mse"
      = Except.ok (vmean (fun i => (1 / 2) * (q i - (rews i + gamma
          * targ_qf2 (next_obs i) ((targ_qf1_max (next_obs i)).2)
          * (1 - dones i))) ^ 2))
    ∧ bellman q
        (fun (_ : Fin 1) i => targ_qf2 (next_obs i)
          ((targ_qf1_max (next_obs i)).2))
        rews dones gamma true det "elementwise_mean"
      = Except.ok (TOut.scalar (vmean (fun i => (1 / 2) * (q i - (rews i
          + gamma * targ_qf2 (next_obs i) ((targ_qf1_max (next_obs i)).2)
          * (1 - dones i))) ^ 2))) := by
  constructor
  · simp only [clipped_double_bellman]
    rw [if_neg (by decide), if_pos trivial]
    refine congrArg Except.ok (congrArg vmean (funext fun i => ?_))
    rw [hsame (next_obs i)]
    simp [inf_idem, min_self]
  · simp only [bellman, if_true]
    rw [if_pos (by decide)]
    refine congrArg Except.ok (congrArg TOut.scalar
      (congrArg vmean (funext fun i => ?_)))
    rw [show vmean (fun _ : Fin 1 => targ_qf2 (next_obs i)
      ((targ_qf1_max (next_obs i)).2)) = targ_qf2 (next_obs i)
      ((targ_qf1_max (next_obs i)).2) from vmean_one]

/-- C6 witness: the refinement theorem applied with the concrete coinciding
target critic `Q(o, a) = o` whose greedy max returns `(o, o)`. -/
theorem C6_cdb_mse_equals_bellman_witness :
    clipped_double_bellman (n := 1) (fun _ => 0) ![0] (fun o => (o, o))
        (fun o _ => o) ![2] ![1] ![0] 1 "mse"
      = Except.ok (vmean (fun i => (1 / 2) * ((![0] : Fin 1 → ℚ) i
          - ((![1] : Fin 1 → ℚ) i + 1
          * (fun o _ => o) ((![2] : Fin 1 → ℚ) i)
            (((fun o => (o, o)) ((![2] : Fin 1 → ℚ) i)).2)
          * (1 - (![0] : Fin 1 → ℚ) i))) ^ 2))
    ∧ bellman (n := 1) ![0]
        (fun (_ : Fin 1) i => (fun o _ => o) ((![2] : Fin 1 → ℚ) i)
          (((fun o => (o, o)) ((![2] : Fin 1 → ℚ) i)).2))
        ![1] ![0] 1 true true "elementwise_mean"
      = Except.ok (TOut.scalar (vmean (fun i => (1 / 2)
          * ((![0] : Fin 1 → ℚ) i - ((![1] : Fin 1 → ℚ) i + 1
          * (fun o _ => o) ((![2] : Fin 1 → ℚ) i)
            (((fun o => (o, o)) ((![2] : Fin 1 → ℚ) i)).2)
          * (1 - (![0] : Fin 1 → ℚ) i))) ^ 2))) :=
  C6_cdb_mse_equals_bellman (fun _ => 0) ![0] (fun o => (o, o))
    (fun o _ => o) ![2] ![1] ![0] 1 true (fun _ => rfl)

/-- C1 (code bug): for a single-member critic ensemble, `torch.min(*next_vs)`
and `torch.max(*pol_losses)` receive a single tensor argument and therefore
reduce globally over the batch dimension (to a 0-dim tensor) instead of
acting as the elementwise identity.  At the concrete batch below (two
transitions, `obs = next_obs = [0, 1]`, zero rewards and dones, `gamma = 1`,
`alpha = 0`, critic and target critic both `Q(o, a) = o`), `sac` returns
policy loss `0` (the batch-global maximum) and critic loss `1/4` (regression
toward the broadcast batch-global minimum next-value), whereas the
computation with that one critic and no ensemble reduction returns policy
loss `-1/2` and critic loss `0`. -/
theorem C1_sac_single_member_not_identity :
    sac (fun _ => 0) (fun _ => 0) [fun o _ => o] [fun o _ => o] 0
      ![0, 1] ![0, 0] ![0, 0] ![0, 1] ![0, 0]
      (fun _ : Fin 1 => ![0, 0]) (fun _ => ![0, 0]) (fun _ => ![0, 0])
      (fun _ => ![0, 0]) 1 true false 0 1
      = some (0, [1 / 4], 0)
    ∧ sacSingleCriticSpec (fun _ => 0) (fun o _ => o) (fun o _ => o) 0
      ![0, 1] ![0, 0] ![0, 0] ![0, 1] ![0, 0]
      (fun _ : Fin 1 => ![0, 0]) (fun _ => ![0, 0]) (fun _ => ![0, 0])
      (fun _ => ![0, 0]) 1 1
      = (-(1 / 2), [0], 0)
    ∧ ((0 : ℚ), [(1 / 4 : ℚ)], (0 : ℚ)) ≠ ((-(1 / 2) : ℚ), [(0 : ℚ)], (0 : ℚ)) := by
  refine ⟨?_, ?_, ?_⟩
  · simp [sac, torchMinList, torchMaxList, gmin, gmax, vmean, vmean2, vsum,
      vstd, List.ofFn_succ, List.min?, List.max?, Fin.sum_univ_succ]
    norm_num
  · simp [sacSingleCriticSpec, vmean, vmean2, vsum, Fin.sum_univ_succ]
    norm_num
  · intro h
    have := congrArg (fun p => p.1) h
    norm_num at this

end Machina
